import Mathlib

/-!
Verification of the langflow task-orchestration subsystem
(`src/backend/base/langflow/services/task_orchestration/service.py`) and the
content schema types (`src/backend/base/langflow/schema/content_types.py`).

The Python service is embedded shallowly: the database session becomes an
explicit orchestration state (`OrchState`) holding the task store, the
subscription registry and the durable notification queue; each service method
becomes a Lean function threading that state.  Machine-level concerns
(apscheduler job registration, diskcache persistence) have no bearing on the
verified claims and are not part of the state.
-/

namespace Langflow

/-- JSON-like values, standing in for Python `dict[str, Any]` payloads
(task results, content fields typed `Any`). -/
inductive JVal where
  | null : JVal
  | str (s : String) : JVal
  | num (n : Int) : JVal
  | dict (fs : List (String × JVal)) : JVal
  | arr (xs : List JVal) : JVal

/-- Modelled from the spec: the Task record
(`langflow.services.database.models.task.model`, not included in the sources).
Fields follow §3 of the spec: identifier, flow/author/assignee identifiers,
category, state, status, optional cron expression, optional result payload.
Identifiers are kept as strings (the service itself casts them with `str`).
Timestamps are omitted: no verified claim mentions them. -/
structure Task where
  id : String
  flow_id : String
  author_id : String
  assignee_id : String
  category : String
  state : String
  status : String
  cron_expression : Option String := none
  result : Option JVal := none

/-- Modelled from the spec: the partial-update record `TaskUpdate`.
A field holds `some v` when it was explicitly set on the partial (so that
`model_dump(exclude_unset=True)` would contain it) and `none` when unset.
The fields are the ones `service.py` itself passes to `TaskUpdate`. -/
structure TaskUpdate where
  status : Option String := none
  state : Option String := none
  result : Option JVal := none

/-- Modelled from the spec: the Subscription record
(`langflow.services.database.models.subscription.model`, not included in the
sources): flow identifier, event type, optional category and state filters. -/
structure Subscription where
  flow_id : String
  event_type : String
  category : Option String := none
  state : Option String := none

/-- `TaskNotification` (service.py lines 29-44): a denormalized snapshot
queued for delivery.  The identifier fields are already strings here, so the
`str`-conversion validator always succeeds and is not modelled as fallible. -/
structure TaskNotification where
  task_id : String
  flow_id : String
  event_type : String
  category : String
  state : String
  status : String

/-- The orchestration state: the persisted task store, the persisted
subscription registry, and the durable FIFO notification queue
(append at the back, pop from the front). -/
structure OrchState where
  tasks : List Task
  subscriptions : List Subscription
  queue : List TaskNotification

/-- `session.exec(select(Task).where(Task.id == task_id)).first()`. -/
def lookupTask (id : String) (ts : List Task) : Option Task :=
  ts.find? (fun t => t.id == id)

/-- Persisting the mutated row fetched by `lookupTask`: the first record
with the given id is replaced, the rest of the store is untouched. -/
def replaceTask (id : String) (t' : Task) : List Task → List Task
  | [] => []
  | t :: ts => if t.id == id then t' :: ts else t :: replaceTask id t' ts

/-- The `setattr` loop of `update_task` (service.py lines 107-114): each field
present in the partial overwrites the stored field, unset fields are left
untouched.  No validation is applied to any field, `status` included. -/
def applyUpdate (t : Task) (u : TaskUpdate) : Task :=
  { t with
    status := u.status.getD t.status
    state := u.state.getD t.state
    result := match u.result with
      | some r => some r
      | none => t.result }

/-- Building one `TaskNotification` snapshot (service.py lines 161-169). -/
def mkNotification (t : Task) (event_type flow_id : String) : TaskNotification :=
  { task_id := t.id
    flow_id := flow_id
    event_type := event_type
    category := t.category
    state := t.state
    status := t.status }

/-- `_add_notification` (service.py lines 161-170): append one snapshot to the
back of the durable queue. -/
def addNotification (st : OrchState) (t : Task) (event_type flow_id : String) :
    OrchState :=
  { st with queue := st.queue ++ [mkNotification t event_type flow_id] }

/-- The subscription filter of `_notify` (service.py lines 151-156):
`((category == task.category) AND (state == task.state))
 OR ((category IS NULL) AND (state IS NULL))`.
Under SQL semantics a NULL column compared with `==` never matches, which the
`Option` equality below reproduces: `none == some v` is false. -/
def subMatches (sub : Subscription) (t : Task) : Bool :=
  (sub.category == some t.category && sub.state == some t.state)
    || (sub.category == none && sub.state == none)

/-- `_notify` (service.py lines 142-159): notify the author, then the
assignee, then every subscription selected by the category/state filter, in
registry order.  The query does not mention `Subscription.event_type`. -/
def notify (st : OrchState) (t : Task) (event_type : String) : OrchState :=
  let st1 := addNotification st t event_type t.author_id
  let st2 := addNotification st1 t event_type t.assignee_id
  let subs := st.subscriptions.filter (fun sub => subMatches sub t)
  subs.foldl (fun acc sub => addNotification acc t event_type sub.flow_id) st2

/-- `update_task` (service.py lines 100-118).  Returns the state after the
call together with the outcome: `Except.error` reproduces the `ValueError`
raised when the id is absent (in which case nothing was written), `Except.ok`
carries the `TaskRead` returned to the caller. -/
def update_task (st : OrchState) (id : String) (u : TaskUpdate) :
    OrchState × Except String Task :=
  match lookupTask id st.tasks with
  | none => (st, .error ("Task with id " ++ id ++ " not found"))
  | some t =>
    let t' := applyUpdate t u
    let st' := { st with tasks := replaceTask id t' st.tasks }
    (notify st' t' "task_updated", .ok t')

/-- `create_task` (service.py lines 87-98): the new record is persisted with
`status = "pending"` and a `task_created` notification is emitted.  The id is
the one the database assigns to the inserted row.  Job scheduling touches only
the external scheduler, not this state. -/
def create_task (st : OrchState) (t0 : Task) : OrchState × Task :=
  let t := { t0 with status := "pending" }
  let st1 := { st with tasks := st.tasks ++ [t] }
  (notify st1 t "task_created", t)

/-- `get_task` (service.py lines 120-126). -/
def get_task (st : OrchState) (id : String) : Except String Task :=
  match lookupTask id st.tasks with
  | none => .error ("Task with id " ++ id ++ " not found")
  | some t => .ok t

/-- The `while self.notification_queue: notifications.append(popleft())` loop
of `get_notifications` (service.py lines 172-176): pop from the front,
append to the back of the result list, until the queue is empty. -/
def drainLoop : List TaskNotification → List TaskNotification →
    List TaskNotification × List TaskNotification
  | [], acc => (acc, [])
  | n :: rest, acc => drainLoop rest (acc ++ [n])

/-- `get_notifications` (service.py lines 172-176): drain the queue, returning
the collected notifications and the state afterwards. -/
def get_notifications (st : OrchState) : List TaskNotification × OrchState :=
  let (ns, q') := drainLoop st.queue []
  (ns, { st with queue := q' })

/-- The error payload `{"error": str(e)}` built on the failure path of
`consume_task` (service.py line 226). -/
def errPayload (e : String) : JVal :=
  .dict [("error", .str e)]

/-- `consume_task` (service.py lines 209-226), parameterised by the
category-specific processing step `_process_task` (modelled as a function that
either produces a result payload or fails with an error description).

The returned list collects the state after each persisted write, in order
(`update_task` to `"processing"`, then the final `update_task`); the `Except`
component is the outcome surfaced to the scheduler.  The `try` block spans the
processing step and the `"completed"` update; any error from either lands in
the `except` branch, which writes the `"failed"` record. -/
def consume_task (process : Task → Except String JVal) (st : OrchState)
    (id : String) : List OrchState × Except String Unit :=
  match get_task st id with
  | .error e => ([], .error e)
  | .ok t =>
    if t.status != "pending" then
      ([], .error ("Task " ++ id ++ " is not in pending status"))
    else
      match update_task st id { status := some "processing", state := some t.state } with
      | (_, .error e) => ([], .error e)
      | (st1, .ok _) =>
        match process t with
        | .ok r =>
          match update_task st1 id
              { status := some "completed", state := some t.state, result := some r } with
          | (st2, .ok _) => ([st1, st2], .ok ())
          | (st2, .error e) =>
            match update_task st2 id
                { status := some "failed", state := some t.state,
                  result := some (errPayload e) } with
            | (st3, .ok _) => ([st1, st3], .ok ())
            | (st3, .error e') => ([st1, st3], .error e')
        | .error e =>
          match update_task st1 id
              { status := some "failed", state := some t.state,
                result := some (errPayload e) } with
          | (st3, .ok _) => ([st1, st3], .ok ())
          | (st3, .error e') => ([st1, st3], .error e')

/-- The stored status of a task id, `none` when no record exists. -/
def statusOf (st : OrchState) (id : String) : Option String :=
  (lookupTask id st.tasks).map (fun t => t.status)

/-- One legal move of the task-status state machine described by the spec:
either nothing changes for the id, or a record appears with the initial
status `"pending"`, or the status advances `pending → processing` or
`processing → completed/failed`. -/
def legalStep (a b : Option String) : Prop :=
  a = b
    ∨ (a = none ∧ b = some "pending")
    ∨ (a = some "pending" ∧ b = some "processing")
    ∨ (a = some "processing" ∧ (b = some "completed" ∨ b = some "failed"))

/-- Both states related by `legalStep` on every task id: one persisted write
of the service respects the state machine. -/
def stepOk (s s' : OrchState) : Prop :=
  ∀ id : String, legalStep (statusOf s id) (statusOf s' id)

/-- The service operations a scheduler-driven client can issue: creating a
task and consuming one.  (`update_task` is exercised separately: it applies
arbitrary partials and is the subject of the C3 counterexample.) -/
inductive Op where
  | create (t : Task) : Op
  | consume (id : String) : Op

/-- The states persisted by one operation, in write order: `create_task`
writes once; `consume_task` writes once per internal `update_task`
(`"processing"`, then the terminal record), and writes nothing on its error
paths. -/
def opSnaps (process : Task → Except String JVal) (st : OrchState) :
    Op → List OrchState
  | .create t => [(create_task st t).1]
  | .consume id => (consume_task process st id).1

/-- Every state persisted along a sequence of operations, in order; each
operation starts from the last persisted state. -/
def traceSnaps (process : Task → Except String JVal) (st : OrchState) :
    List Op → List OrchState
  | [] => []
  | op :: ops =>
    let snaps := opSnaps process st op
    snaps ++ traceSnaps process (snaps.getLastD st) ops

/-! ### Concrete fixtures used by witnesses and counterexamples -/

/-- A concrete pending task. -/
def taskPending : Task :=
  { id := "t1", flow_id := "f1", author_id := "a1", assignee_id := "b1",
    category := "email", state := "draft", status := "pending" }

/-- The same record after completion. -/
def taskDone : Task := { taskPending with status := "completed" }

/-- A task whose author and assignee coincide. -/
def taskSelf : Task := { taskPending with assignee_id := "a1" }

/-- A store holding one completed task. -/
def stDone : OrchState := { tasks := [taskDone], subscriptions := [], queue := [] }

/-- A store holding one pending task and no subscriptions. -/
def stPending : OrchState :=
  { tasks := [taskPending], subscriptions := [], queue := [] }

/-- A store holding the author-equals-assignee task and no subscriptions. -/
def stSelf : OrchState := { tasks := [taskSelf], subscriptions := [], queue := [] }

/-- A subscription with no filters (wildcard). -/
def subWildcard : Subscription := { flow_id := "s0", event_type := "task_created" }

/-- A subscription with only the category filter set. -/
def subCatOnly : Subscription :=
  { flow_id := "s1", event_type := "task_created", category := some "email" }

/-- A subscription with both filters set. -/
def subBoth : Subscription :=
  { flow_id := "s2", event_type := "task_created", category := some "email",
    state := some "draft" }

/-- A wildcard subscription registered for a different event type. -/
def subOtherEvent : Subscription :=
  { flow_id := "s9", event_type := "task_updated" }

/-- A store holding one pending task and the differently-typed wildcard
subscription. -/
def stWithSub : OrchState :=
  { tasks := [taskPending], subscriptions := [subOtherEvent], queue := [] }

/-- Rewriting every subscription's event type (used to state that `_notify`
never reads it). -/
def retypeSubs (f : String → String) (subs : List Subscription) :
    List Subscription :=
  subs.map (fun sub => { sub with event_type := f sub.event_type })

/-! ### Deriving the tasks-storage URL (service.py lines 47-60)

Strings are embedded as `List Char` so that the Python string operations
(`startswith`, `rsplit(".", 1)`, `split("?", 1)`) can be reasoned about
structurally. -/

/-- `s.split(c, 1)`: split at the first occurrence of `c`, `none` when `c`
does not occur. -/
def splitFirst (c : Char) : List Char → Option (List Char × List Char)
  | [] => none
  | x :: xs =>
    if x = c then some ([], xs)
    else
      match splitFirst c xs with
      | none => none
      | some (a, b) => some (x :: a, b)

/-- `s.rsplit(c, 1)`: split at the last occurrence of `c` (found as the first
occurrence in the reversed string), `none` when `c` does not occur. -/
def rsplitLast (c : Char) (s : List Char) : Option (List Char × List Char) :=
  match splitFirst c s.reverse with
  | none => none
  | some (a, b) => some (b.reverse, a.reverse)

/-- `add_tasks_to_database_url` (service.py lines 47-60): sqlite URLs get
`-tasks` spliced in at the last `.` (appended when there is none); postgresql
and mysql URLs get `_tasks` before the first `?` (appended when there is
none); anything else passes through unchanged. -/
def add_tasks_to_database_url (url : List Char) : List Char :=
  if "sqlite://".toList.isPrefixOf url then
    match rsplitLast '.' url with
    | some (a, b) => a ++ "-tasks.".toList ++ b
    | none => url ++ "-tasks".toList
  else if "postgresql://".toList.isPrefixOf url
      || "mysql://".toList.isPrefixOf url then
    match splitFirst '?' url with
    | some (a, b) => a ++ "_tasks?".toList ++ b
    | none => url ++ "_tasks".toList
  else url

/-- Modelled from the spec (§6): the "file extension" of a path — the maximal
dot-free suffix after a final `.`, computed by scanning from the right —
together with the stem before that dot; `none` when the string has no dot. -/
def fileExt (s : List Char) : Option (List Char × List Char) :=
  let ext := (s.reverse.takeWhile (fun c => c != '.')).reverse
  if ext.length = s.length then none
  else some (s.take (s.length - ext.length - 1), ext)

/-- Modelled from the spec (§6), in the spec's words: for sqlite-scheme URLs
the original with `-tasks` inserted before the file extension (appended at the
end when there is no extension); for postgresql/mysql-scheme URLs the original
with `_tasks` appended to the database name, preserving any query string after
`?`; every other scheme passes through unchanged. -/
def tasksUrlSpec (url : List Char) : List Char :=
  if "sqlite://".toList.isPrefixOf url then
    match fileExt url with
    | some (stem, ext) => stem ++ "-tasks.".toList ++ ext
    | none => url ++ "-tasks".toList
  else if "postgresql://".toList.isPrefixOf url
      || "mysql://".toList.isPrefixOf url then
    match splitFirst '?' url with
    | some (base, params) => base ++ "_tasks?".toList ++ params
    | none => url ++ "_tasks".toList
  else url

/-! ### Content schema types (content_types.py)

Pydantic models become structures; `to_dict` / `from_dict` translate to and
from association lists of `JVal`.  `from_dict` models pydantic validation:
required fields must be present with the right shape, `Literal` fields must
carry their literal, and a `HeaderDict` value supplied explicitly must contain
`title` and `icon` (pydantic validates TypedDicts), while the
`default_factory=dict` default `{}` is applied unvalidated.  `float` durations
carry no arithmetic here and are embedded as integers. -/

/-- The runtime value space of the `header` field: either the unvalidated
default `{}` produced by `default_factory=dict`, or a complete validated
`HeaderDict` with `title` and `icon`. -/
inductive HeaderDict where
  | empty : HeaderDict
  | mk (title icon : String) : HeaderDict
deriving DecidableEq

def HeaderDict.toJVal : HeaderDict → JVal
  | .empty => .dict []
  | .mk t i => .dict [("title", .str t), ("icon", .str i)]

def optStrJ : Option String → JVal
  | none => .null
  | some s => .str s

def optIntJ : Option Int → JVal
  | none => .null
  | some n => .num n

/-- Validation of an `str | None` field: absent or null defaults to `None`. -/
def parseOptStr (k : String) : Option JVal → Except String (Option String)
  | none => .ok none
  | some .null => .ok none
  | some (.str s) => .ok (some s)
  | some _ => .error (k ++ ": Input should be a valid string")

/-- Validation of a numeric `| None` field. -/
def parseOptInt (k : String) : Option JVal → Except String (Option Int)
  | none => .ok none
  | some .null => .ok none
  | some (.num n) => .ok (some n)
  | some _ => .error (k ++ ": Input should be a valid number")

/-- Validation of a required `str` field. -/
def parseReqStr (k : String) : Option JVal → Except String String
  | some (.str s) => .ok s
  | some _ => .error (k ++ ": Input should be a valid string")
  | none => .error (k ++ ": Field required")

/-- Validation of a `Literal[lit]` field with default `lit`. -/
def parseLit (k lit : String) : Option JVal → Except String String
  | none => .ok lit
  | some (.str s) => if s = lit then .ok s else .error (k ++ ": Input should be " ++ lit)
  | some _ => .error (k ++ ": Input should be " ++ lit)

/-- Validation of an explicitly supplied `HeaderDict` value: pydantic requires
the `title` and `icon` keys of the TypedDict. -/
def parseHeaderVal : JVal → Except String HeaderDict
  | .dict fs =>
    match fs.lookup "title", fs.lookup "icon" with
    | some (.str t), some (.str i) => .ok (.mk t i)
    | _, _ => .error "header: Field required"
  | _ => .error "header: Input should be a valid dictionary"

/-- The `header` field: missing means the `default_factory=dict` default `{}`
is taken without validation; a present value is validated. -/
def parseHeader : Option JVal → Except String HeaderDict
  | none => .ok .empty
  | some v => parseHeaderVal v

/-- Elements of a `list[str]` field. -/
def asStrs : List JVal → Option (List String)
  | [] => some []
  | .str s :: xs => (asStrs xs).map (fun l => s :: l)
  | _ => none

/-- Validation of a required `list[str]` field. -/
def parseStrList (k : String) : Option JVal → Except String (List String)
  | some (.arr xs) =>
    match asStrs xs with
    | some l => .ok l
    | none => .error (k ++ ": Input should be a valid list of strings")
  | some _ => .error (k ++ ": Input should be a valid list")
  | none => .error (k ++ ": Field required")

/-- Validation of a required `dict[str, Any]` field. -/
def parseDict (k : String) : Option JVal → Except String (List (String × JVal))
  | some (.dict fs) => .ok fs
  | some _ => .error (k ++ ": Input should be a valid dictionary")
  | none => .error (k ++ ": Field required")

/-- `BaseContent` (content_types.py lines 12-24): `type` is a free string,
`duration` optional, `header` defaults to the unvalidated `{}`. -/
structure BaseContent where
  type : String
  duration : Option Int := none
  header : HeaderDict := .empty
deriving DecidableEq

def BaseContent.to_dict (c : BaseContent) : List (String × JVal) :=
  [("type", .str c.type), ("duration", optIntJ c.duration),
   ("header", c.header.toJVal)]

def BaseContent.from_dict (fs : List (String × JVal)) :
    Except String BaseContent := do
  let ty ← parseReqStr "type" (fs.lookup "type")
  let du ← parseOptInt "duration" (fs.lookup "duration")
  let hd ← parseHeader (fs.lookup "header")
  .ok { type := ty, duration := du, header := hd }

/-- `ErrorContent` (content_types.py lines 27-35).  The `type` field is
`Literal["error"]`, so every value carries `"error"` there; the literal is
emitted by `to_dict` and checked by `from_dict` rather than stored. -/
structure ErrorContent where
  duration : Option Int := none
  header : HeaderDict := .empty
  component : Option String := none
  field : Option String := none
  reason : Option String := none
  solution : Option String := none
  traceback : Option String := none
deriving DecidableEq

def ErrorContent.to_dict (c : ErrorContent) : List (String × JVal) :=
  [("type", .str "error"), ("duration", optIntJ c.duration),
   ("header", c.header.toJVal), ("component", optStrJ c.component),
   ("field", optStrJ c.field), ("reason", optStrJ c.reason),
   ("solution", optStrJ c.solution), ("traceback", optStrJ c.traceback)]

def ErrorContent.from_dict (fs : List (String × JVal)) :
    Except String ErrorContent := do
  let _ ← parseLit "type" "error" (fs.lookup "type")
  let du ← parseOptInt "duration" (fs.lookup "duration")
  let hd ← parseHeader (fs.lookup "header")
  let comp ← parseOptStr "component" (fs.lookup "component")
  let fld ← parseOptStr "field" (fs.lookup "field")
  let rsn ← parseOptStr "reason" (fs.lookup "reason")
  let sol ← parseOptStr "solution" (fs.lookup "solution")
  let tb ← parseOptStr "traceback" (fs.lookup "traceback")
  .ok { duration := du, header := hd, component := comp, field := fld,
        reason := rsn, solution := sol, traceback := tb }

/-- `TextContent` (content_types.py lines 38-43): required `text`, integer
`duration`. -/
structure TextContent where
  duration : Option Int := none
  header : HeaderDict := .empty
  text : String
deriving DecidableEq

def TextContent.to_dict (c : TextContent) : List (String × JVal) :=
  [("type", .str "text"), ("duration", optIntJ c.duration),
   ("header", c.header.toJVal), ("text", .str c.text)]

def TextContent.from_dict (fs : List (String × JVal)) :
    Except String TextContent := do
  let _ ← parseLit "type" "text" (fs.lookup "type")
  let du ← parseOptInt "duration" (fs.lookup "duration")
  let hd ← parseHeader (fs.lookup "header")
  let tx ← parseReqStr "text" (fs.lookup "text")
  .ok { duration := du, header := hd, text := tx }

/-- `MediaContent` (content_types.py lines 46-51): required `urls`, optional
`caption`. -/
structure MediaContent where
  duration : Option Int := none
  header : HeaderDict := .empty
  urls : List String
  caption : Option String := none
deriving DecidableEq

def MediaContent.to_dict (c : MediaContent) : List (String × JVal) :=
  [("type", .str "media"), ("duration", optIntJ c.duration),
   ("header", c.header.toJVal), ("urls", .arr (c.urls.map JVal.str)),
   ("caption", optStrJ c.caption)]

def MediaContent.from_dict (fs : List (String × JVal)) :
    Except String MediaContent := do
  let _ ← parseLit "type" "media" (fs.lookup "type")
  let du ← parseOptInt "duration" (fs.lookup "duration")
  let hd ← parseHeader (fs.lookup "header")
  let us ← parseStrList "urls" (fs.lookup "urls")
  let cap ← parseOptStr "caption" (fs.lookup "caption")
  .ok { duration := du, header := hd, urls := us, caption := cap }

/-- `JSONContent` (content_types.py lines 54-58): required `data` dict. -/
structure JSONContent where
  duration : Option Int := none
  header : HeaderDict := .empty
  data : List (String × JVal)

def JSONContent.to_dict (c : JSONContent) : List (String × JVal) :=
  [("type", .str "json"), ("duration", optIntJ c.duration),
   ("header", c.header.toJVal), ("data", .dict c.data)]

def JSONContent.from_dict (fs : List (String × JVal)) :
    Except String JSONContent := do
  let _ ← parseLit "type" "json" (fs.lookup "type")
  let du ← parseOptInt "duration" (fs.lookup "duration")
  let hd ← parseHeader (fs.lookup "header")
  let da ← parseDict "data" (fs.lookup "data")
  .ok { duration := du, header := hd, data := da }

/-- `CodeContent` (content_types.py lines 61-67): required `code` and
`language`, optional `title`. -/
structure CodeContent where
  duration : Option Int := none
  header : HeaderDict := .empty
  code : String
  language : String
  title : Option String := none
deriving DecidableEq

def CodeContent.to_dict (c : CodeContent) : List (String × JVal) :=
  [("type", .str "code"), ("duration", optIntJ c.duration),
   ("header", c.header.toJVal), ("code", .str c.code),
   ("language", .str c.language), ("title", optStrJ c.title)]

def CodeContent.from_dict (fs : List (String × JVal)) :
    Except String CodeContent := do
  let _ ← parseLit "type" "code" (fs.lookup "type")
  let du ← parseOptInt "duration" (fs.lookup "duration")
  let hd ← parseHeader (fs.lookup "header")
  let cd ← parseReqStr "code" (fs.lookup "code")
  let lg ← parseReqStr "language" (fs.lookup "language")
  let ti ← parseOptStr "title" (fs.lookup "title")
  .ok { duration := du, header := hd, code := cd, language := lg, title := ti }

/-- The alias-aware `tool_input` field of `ToolContent`: accepted under its
field name or under the alias `input` (`populate_by_name=True`), missing
defaults to `{}`. -/
def parseToolInput (fs : List (String × JVal)) :
    Except String (List (String × JVal)) :=
  match fs.lookup "tool_input" with
  | some (.dict d) => .ok d
  | some _ => .error "tool_input: Input should be a valid dictionary"
  | none =>
    match fs.lookup "input" with
    | some (.dict d) => .ok d
    | some _ => .error "tool_input: Input should be a valid dictionary"
    | none => .ok []

/-- An `Any`-typed field with default `None`: any value (including null) is
accepted as-is. -/
def parseAny : Option JVal → Except String JVal
  | none => .ok .null
  | some v => .ok v

/-- `ToolContent` (content_types.py lines 70-80): `tool_input` dumped under
its field name (no `by_alias`), `output`/`error` typed `Any` (default
`None`, embedded as `null`), integer `duration`. -/
structure ToolContent where
  duration : Option Int := none
  header : HeaderDict := .empty
  name : Option String := none
  tool_input : List (String × JVal) := []
  output : JVal := .null
  error : JVal := .null

def ToolContent.to_dict (c : ToolContent) : List (String × JVal) :=
  [("type", .str "tool_use"), ("duration", optIntJ c.duration),
   ("header", c.header.toJVal), ("name", optStrJ c.name),
   ("tool_input", .dict c.tool_input), ("output", c.output),
   ("error", c.error)]

def ToolContent.from_dict (fs : List (String × JVal)) :
    Except String ToolContent := do
  let _ ← parseLit "type" "tool_use" (fs.lookup "type")
  let du ← parseOptInt "duration" (fs.lookup "duration")
  let hd ← parseHeader (fs.lookup "header")
  let nm ← parseOptStr "name" (fs.lookup "name")
  let ti ← parseToolInput fs
  let op ← parseAny (fs.lookup "output")
  let er ← parseAny (fs.lookup "error")
  .ok { duration := du, header := hd, name := nm, tool_input := ti,
        output := op, error := er }

/-- A `BaseContent` built with all defaults: its header is the unvalidated
`{}`. -/
def baseDefaultHeader : BaseContent := { type := "generic" }

/-- Concrete content values with complete headers, one per class. -/
def cBase : BaseContent :=
  { type := "generic", duration := some 3, header := .mk "T" "I" }

def cErr : ErrorContent :=
  { header := .mk "T" "I", component := some "comp", reason := some "why" }

def cText : TextContent :=
  { header := .mk "T" "I", text := "hello", duration := some 2 }

def cMedia : MediaContent :=
  { header := .mk "T" "I", urls := ["u1", "u2"], caption := some "cap" }

def cJson : JSONContent :=
  { header := .mk "T" "I", data := [("k", .num 1)] }

def cCode : CodeContent :=
  { header := .mk "T" "I", code := "x = 1", language := "python" }

def cTool : ToolContent :=
  { header := .mk "T" "I", name := some "search",
    tool_input := [("q", .str "langflow")], output := .str "ok" }

/-! ### Basic lemmas about the store, the queue and `_notify` -/

theorem drainLoop_eq (q acc : List TaskNotification) :
    drainLoop q acc = (acc ++ q, []) := by
  induction q generalizing acc with
  | nil => simp [drainLoop]
  | cons n rest ih => simp [drainLoop, ih]

theorem applyUpdate_id (t : Task) (u : TaskUpdate) :
    (applyUpdate t u).id = t.id := rfl

theorem applyUpdate_empty (t : Task) : applyUpdate t {} = t := rfl

theorem lookupTask_beq {id : String} {ts : List Task} {t : Task}
    (h : lookupTask id ts = some t) : (t.id == id) = true := by
  induction ts with
  | nil => simp [lookupTask] at h
  | cons a ts ih =>
    cases ha : (a.id == id) with
    | true =>
      simp only [lookupTask, List.find?, ha] at h
      cases h
      exact ha
    | false =>
      simp only [lookupTask, List.find?, ha] at h
      exact ih h

theorem lookupTask_replaceTask_self {id : String} {ts : List Task} {t : Task}
    (t' : Task) (ht' : (t'.id == id) = true)
    (h : lookupTask id ts = some t) :
    lookupTask id (replaceTask id t' ts) = some t' := by
  induction ts with
  | nil => simp [lookupTask] at h
  | cons a ts ih =>
    cases ha : (a.id == id) with
    | true => simp [replaceTask, ha, lookupTask, List.find?, ht']
    | false =>
      simp only [lookupTask, List.find?, ha] at h
      simp only [replaceTask, ha, Bool.false_eq_true, if_false, lookupTask,
        List.find?]
      exact ih h

theorem lookupTask_replaceTask_ne {id id' : String} (t' : Task)
    (hne : id' ≠ id) (ht' : (t'.id == id) = true) (ts : List Task) :
    lookupTask id' (replaceTask id t' ts) = lookupTask id' ts := by
  induction ts with
  | nil => simp [replaceTask]
  | cons a ts ih =>
    cases ha : (a.id == id) with
    | true =>
      have ht'id : t'.id = id := by simpa using ht'
      have haid : a.id = id := by simpa using ha
      have h1 : (t'.id == id') = false := by
        simp only [beq_eq_false_iff_ne, ne_eq, ht'id]
        exact fun h => hne h.symm
      have h2 : (a.id == id') = false := by
        simp only [beq_eq_false_iff_ne, ne_eq, haid]
        exact fun h => hne h.symm
      simp [replaceTask, ha, lookupTask, List.find?, h1, h2]
    | false =>
      simp only [replaceTask, ha, Bool.false_eq_true, if_false, lookupTask,
        List.find?]
      cases hcase : (a.id == id') with
      | true => rfl
      | false => exact ih

theorem replaceTask_self {id : String} {ts : List Task} {t : Task}
    (h : lookupTask id ts = some t) : replaceTask id t ts = ts := by
  induction ts with
  | nil => rfl
  | cons a ts ih =>
    cases ha : (a.id == id) with
    | true =>
      simp only [lookupTask, List.find?, ha] at h
      cases h
      simp [replaceTask, ha]
    | false =>
      simp only [lookupTask, List.find?, ha] at h
      simp only [replaceTask, ha, Bool.false_eq_true, if_false]
      rw [ih h]

theorem foldl_addNotification (t : Task) (e : String)
    (subs : List Subscription) (acc : OrchState) :
    subs.foldl (fun a sub => addNotification a t e sub.flow_id) acc =
      { acc with
        queue := acc.queue ++ subs.map (fun sub => mkNotification t e sub.flow_id) } := by
  induction subs generalizing acc with
  | nil => simp
  | cons s rest ih =>
    simp only [List.foldl_cons, List.map_cons]
    rw [ih]
    simp [addNotification]

/-- The queued notifications of `_notify`: one entry for the author, one for
the assignee, then one per subscription passing the category/state filter, in
that order; tasks and subscriptions are untouched. -/
theorem notify_eq (st : OrchState) (t : Task) (e : String) :
    notify st t e =
      { st with
        queue := st.queue
          ++ mkNotification t e t.author_id
            :: mkNotification t e t.assignee_id
            :: (st.subscriptions.filter (fun sub => subMatches sub t)).map
                (fun sub => mkNotification t e sub.flow_id) } := by
  unfold notify
  rw [foldl_addNotification]
  simp [addNotification]

theorem update_task_found {st : OrchState} {id : String} {t : Task}
    (u : TaskUpdate) (h : lookupTask id st.tasks = some t) :
    update_task st id u =
      (notify { st with tasks := replaceTask id (applyUpdate t u) st.tasks }
        (applyUpdate t u) "task_updated", .ok (applyUpdate t u)) := by
  unfold update_task
  rw [h]

theorem update_task_tasks {st : OrchState} {id : String} {t : Task}
    (u : TaskUpdate) (h : lookupTask id st.tasks = some t) :
    (update_task st id u).1.tasks = replaceTask id (applyUpdate t u) st.tasks := by
  rw [update_task_found u h, notify_eq]

theorem lookup_update_task {st : OrchState} {id : String} {t : Task}
    (u : TaskUpdate) (h : lookupTask id st.tasks = some t) :
    lookupTask id (update_task st id u).1.tasks = some (applyUpdate t u) := by
  rw [update_task_tasks u h]
  exact lookupTask_replaceTask_self _ (by rw [applyUpdate_id]; exact lookupTask_beq h) h

/-! ### Claims -/

/-- C7: `get_notifications` returns the whole queue in FIFO (append) order,
leaves the queue empty (all other state untouched), and a second call with no
intervening emission returns the empty list. -/
theorem C7_get_notifications_drains_fifo (st : OrchState) :
    (get_notifications st).1 = st.queue
    ∧ (get_notifications st).2 = { st with queue := [] }
    ∧ (get_notifications (get_notifications st).2).1 = [] := by
  simp [get_notifications, drainLoop_eq]

/-- C4: `consume_task` on a task whose stored status is not `"pending"`
surfaces the `InvalidState` error and performs no write at all: the returned
snapshot list is empty, so the stored task record and the notification queue
are exactly as before the call. -/
theorem C4_consume_invalid_state (process : Task → Except String JVal)
    (st : OrchState) (id : String) (t : Task)
    (h : lookupTask id st.tasks = some t) (hs : t.status ≠ "pending") :
    consume_task process st id =
      ([], .error ("Task " ++ id ++ " is not in pending status")) := by
  have hb : (t.status != "pending") = true := by
    simp [bne_iff_ne, hs]
  simp [consume_task, get_task, h, hb]

/-- Witness for C4: consuming a completed task fails and writes nothing. -/
theorem C4_consume_invalid_state_witness :
    consume_task (fun _ => .ok .null) stDone "t1" =
      ([], .error ("Task " ++ "t1" ++ " is not in pending status")) :=
  C4_consume_invalid_state (fun _ => .ok .null) stDone "t1" taskDone rfl
    (by decide)

/-- C8: `update_task` with an empty partial leaves the task store (hence every
stored field of the task) and the subscription registry unchanged, returns the
unchanged record, and still appends the `"task_updated"` notifications for the
author, the assignee and every matching subscriber. -/
theorem C8_update_task_empty_partial (st : OrchState) (id : String) (t : Task)
    (h : lookupTask id st.tasks = some t) :
    (update_task st id {}).2 = .ok t
    ∧ (update_task st id {}).1.tasks = st.tasks
    ∧ (update_task st id {}).1.subscriptions = st.subscriptions
    ∧ (update_task st id {}).1.queue = st.queue
        ++ mkNotification t "task_updated" t.author_id
          :: mkNotification t "task_updated" t.assignee_id
          :: (st.subscriptions.filter (fun sub => subMatches sub t)).map
              (fun sub => mkNotification t "task_updated" sub.flow_id) := by
  have e1 := update_task_found ({} : TaskUpdate) h
  rw [applyUpdate_empty, replaceTask_self h] at e1
  rw [e1, notify_eq]
  exact ⟨rfl, rfl, rfl, rfl⟩

/-- Witness for C8: an empty partial on the concrete pending task. -/
theorem C8_update_task_empty_partial_witness :
    (update_task stPending "t1" {}).2 = .ok taskPending
    ∧ (update_task stPending "t1" {}).1.tasks = stPending.tasks
    ∧ (update_task stPending "t1" {}).1.subscriptions = stPending.subscriptions
    ∧ (update_task stPending "t1" {}).1.queue = stPending.queue
        ++ mkNotification taskPending "task_updated" taskPending.author_id
          :: mkNotification taskPending "task_updated" taskPending.assignee_id
          :: (stPending.subscriptions.filter
                (fun sub => subMatches sub taskPending)).map
              (fun sub => mkNotification taskPending "task_updated" sub.flow_id) :=
  C8_update_task_empty_partial stPending "t1" taskPending rfl

theorem consume_task_invalid_eq (process : Task → Except String JVal)
    (st : OrchState) (id : String) (t : Task)
    (h : lookupTask id st.tasks = some t) (hs : t.status ≠ "pending") :
    consume_task process st id =
      ([], .error ("Task " ++ id ++ " is not in pending status")) := by
  have hb : (t.status != "pending") = true := by
    simp [bne_iff_ne, hs]
  simp [consume_task, get_task, h, hb]

theorem consume_task_ok_eq (process : Task → Except String JVal)
    (st : OrchState) (id : String) (t : Task) (r : JVal)
    (h : lookupTask id st.tasks = some t) (hs : t.status = "pending")
    (hp : process t = .ok r) :
    consume_task process st id =
      ([(update_task st id { status := some "processing", state := some t.state }).1,
        (update_task
          (update_task st id { status := some "processing", state := some t.state }).1
          id
          { status := some "completed", state := some t.state,
            result := some r }).1],
       .ok ()) := by
  have h1 := lookup_update_task
    { status := some "processing", state := some t.state } h
  have hu1 := update_task_found
    { status := some "processing", state := some t.state } h
  have hu2 := update_task_found
    { status := some "completed", state := some t.state, result := some r } h1
  have hb : (t.status != "pending") = false := by
    simp [bne, hs]
  simp only [consume_task, get_task, h, hb, Bool.false_eq_true, if_false, hp]
  rw [hu1] at hu2 ⊢
  simp only []
  rw [hu2]

theorem consume_task_fail_eq (process : Task → Except String JVal)
    (st : OrchState) (id : String) (t : Task) (e : String)
    (h : lookupTask id st.tasks = some t) (hs : t.status = "pending")
    (hp : process t = .error e) :
    consume_task process st id =
      ([(update_task st id { status := some "processing", state := some t.state }).1,
        (update_task
          (update_task st id { status := some "processing", state := some t.state }).1
          id
          { status := some "failed", state := some t.state,
            result := some (errPayload e) }).1],
       .ok ()) := by
  have h1 := lookup_update_task
    { status := some "processing", state := some t.state } h
  have hu1 := update_task_found
    { status := some "processing", state := some t.state } h
  have hu3 := update_task_found
    { status := some "failed", state := some t.state,
      result := some (errPayload e) } h1
  have hb : (t.status != "pending") = false := by
    simp [bne, hs]
  simp only [consume_task, get_task, h, hb, Bool.false_eq_true, if_false, hp]
  rw [hu1] at hu3 ⊢
  simp only []
  rw [hu3]

/-- C5: on a pending task whose category-specific processing step fails,
`consume_task` does not re-raise the error (the scheduler sees a normal
return), and the final stored record has status `"failed"` with the
error-description payload `{"error": e}`. -/
theorem C5_consume_process_failure_swallowed
    (process : Task → Except String JVal) (st : OrchState) (id : String)
    (t : Task) (e : String)
    (h : lookupTask id st.tasks = some t) (hs : t.status = "pending")
    (hp : process t = .error e) :
    (consume_task process st id).2 = .ok ()
    ∧ (lookupTask id ((consume_task process st id).1.getLastD st).tasks).map
        (fun r => (r.status, r.result))
      = some ("failed", some (errPayload e)) := by
  have h1 := lookup_update_task
    { status := some "processing", state := some t.state } h
  have h3 := lookup_update_task
    { status := some "failed", state := some t.state,
      result := some (errPayload e) } h1
  rw [consume_task_fail_eq process st id t e h hs hp]
  refine ⟨rfl, ?_⟩
  rw [List.getLastD_cons, List.getLastD_cons, List.getLastD_nil, h3]
  rfl

/-- Witness for C5: a concrete pending task whose processing step raises. -/
theorem C5_consume_process_failure_swallowed_witness :
    (consume_task (fun _ => .error "boom") stPending "t1").2 = .ok ()
    ∧ (lookupTask "t1"
        ((consume_task (fun _ => .error "boom") stPending "t1").1.getLastD
          stPending).tasks).map (fun r => (r.status, r.result))
      = some ("failed", some (errPayload "boom")) :=
  C5_consume_process_failure_swallowed (fun _ => .error "boom") stPending "t1"
    taskPending "boom" rfl rfl rfl

/-- Counterexample for C1: a subscription with only the category filter set
(`category = some "email"`, `state = none`) does not match a task whose
category is exactly `"email"` — the SQL filter requires both equalities or
both columns NULL, so a half-set filter matches nothing, contradicting the
claim that it matches regardless of the task's state. -/
theorem C1_counterexample :
    subCatOnly.category = some taskPending.category
    ∧ subCatOnly.state = none
    ∧ subMatches subCatOnly taskPending = false := by
  refine ⟨rfl, rfl, rfl⟩

/-- C1 (amended): a subscription with both filters unset matches every task;
one with both filters set matches exactly the tasks whose category and state
both equal the filter values (conjunctive); one with exactly one filter set
matches no task at all. -/
theorem C1_subscription_matching_amended (sub : Subscription) (t : Task) :
    (sub.category = none ∧ sub.state = none → subMatches sub t = true)
    ∧ (∀ c s, sub.category = some c → sub.state = some s →
        (subMatches sub t = true ↔ t.category = c ∧ t.state = s))
    ∧ (sub.category.isNone ≠ sub.state.isNone → subMatches sub t = false) := by
  refine ⟨?_, ?_, ?_⟩
  · rintro ⟨hc, hs⟩
    simp [subMatches, hc, hs]
  · intro c s hc hs
    simp only [subMatches, hc, hs, Bool.or_eq_true, Bool.and_eq_true,
      beq_iff_eq, Option.some.injEq, reduceCtorEq, false_and, or_false,
      and_false]
    constructor
    · rintro ⟨h1, h2⟩
      exact ⟨h1.symm, h2.symm⟩
    · rintro ⟨h1, h2⟩
      exact ⟨h1.symm, h2.symm⟩
  · intro hne
    cases hc : sub.category with
    | none =>
      cases hs : sub.state with
      | none => rw [hc, hs] at hne; simp at hne
      | some s => simp [subMatches, hc, hs]
    | some c =>
      cases hs : sub.state with
      | none => simp [subMatches, hc, hs]
      | some s => rw [hc, hs] at hne; simp at hne

/-- Witness for C1 (amended), exercising all three conjuncts on concrete
subscriptions against the concrete pending task. -/
theorem C1_subscription_matching_amended_witness :
    subMatches subWildcard taskPending = true
    ∧ (subMatches subBoth taskPending = true
        ↔ taskPending.category = "email" ∧ taskPending.state = "draft")
    ∧ subMatches subCatOnly taskPending = false :=
  ⟨(C1_subscription_matching_amended subWildcard taskPending).1 ⟨rfl, rfl⟩,
   (C1_subscription_matching_amended subBoth taskPending).2.1 "email" "draft"
     rfl rfl,
   (C1_subscription_matching_amended subCatOnly taskPending).2.2 (by decide)⟩

/-- Counterexample for C2: a wildcard subscription registered for
`"task_updated"` still receives a queue entry when a `"task_created"` event is
emitted — the subscription query of `_notify` never compares
`Subscription.event_type` with the emitted event type. -/
theorem C2_counterexample :
    subOtherEvent.event_type ≠ "task_created"
    ∧ (notify stWithSub taskPending "task_created").queue
      = [mkNotification taskPending "task_created" taskPending.author_id,
         mkNotification taskPending "task_created" taskPending.assignee_id,
         mkNotification taskPending "task_created" subOtherEvent.flow_id]
    ∧ subOtherEvent.flow_id ≠ taskPending.author_id
    ∧ subOtherEvent.flow_id ≠ taskPending.assignee_id := by
  refine ⟨by decide, ?_, by decide, by decide⟩
  rw [notify_eq]
  rfl

/-- C2 (amended): the recipients selected from the Subscription Registry by
`_notify` are exactly the subscriptions passing the category/state filter,
irrespective of their registered event type: the queue gains one entry for the
author, one for the assignee, and one per filter-matching subscription, and
rewriting every subscription's event type arbitrarily leaves the emitted queue
unchanged. -/
theorem C2_notify_recipients_amended (st : OrchState) (t : Task) (e : String) :
    ((notify st t e).queue = st.queue
      ++ mkNotification t e t.author_id :: mkNotification t e t.assignee_id
        :: (st.subscriptions.filter (fun sub => subMatches sub t)).map
            (fun sub => mkNotification t e sub.flow_id))
    ∧ ∀ f : String → String,
        (notify { st with subscriptions := retypeSubs f st.subscriptions } t e).queue
          = (notify st t e).queue := by
  constructor
  · rw [notify_eq]
  · intro f
    rw [notify_eq, notify_eq]
    simp only [retypeSubs, List.filter_map, List.map_map]
    rfl

/-- Counterexample for C6: when the author and the assignee coincide, the
claimed count `|{author, assignee}| + |matching subscriptions|` is `1`, but
`_notify` appends `2` entries (one per role, no dedup). -/
theorem C6_counterexample :
    taskSelf.author_id = taskSelf.assignee_id
    ∧ (notify stSelf taskSelf "task_created").queue.length = 2
    ∧ ({taskSelf.author_id, taskSelf.assignee_id} : Finset String).card
        + (stSelf.subscriptions.filter
            (fun sub => subMatches sub taskSelf)).length = 1 := by
  refine ⟨rfl, ?_, by decide⟩
  rw [notify_eq]
  rfl

/-- C6 (amended): every emission appends exactly
`2 + |filter-matching subscriptions|` entries to the queue: one for the
author and one for the assignee (each role counted even when the two
identifiers coincide), plus one per matching subscription. -/
theorem C6_notification_count_amended (st : OrchState) (t : Task) (e : String) :
    (notify st t e).queue.length
      = st.queue.length + 2
        + (st.subscriptions.filter (fun sub => subMatches sub t)).length := by
  rw [notify_eq]
  simp only [List.length_append, List.length_cons, List.length_map]
  omega

/-! ### The status state machine (C3) -/

theorem legalStep_refl (a : Option String) : legalStep a a := Or.inl rfl

theorem notify_tasks (st : OrchState) (t : Task) (e : String) :
    (notify st t e).tasks = st.tasks := by
  rw [notify_eq]

theorem lookupTask_append (id : String) (ts : List Task) (t : Task) :
    lookupTask id (ts ++ [t]) =
      match lookupTask id ts with
      | some x => some x
      | none => if t.id == id then some t else none := by
  induction ts with
  | nil =>
    cases hb : (t.id == id) with
    | true => simp [lookupTask, List.find?, hb]
    | false => simp [lookupTask, List.find?, hb]
  | cons a ts ih =>
    cases ha : (a.id == id) with
    | true => simp [lookupTask, List.find?, ha]
    | false =>
      simp only [List.cons_append, lookupTask, List.find?, ha] at ih ⊢
      exact ih

theorem stepOk_create (st : OrchState) (t0 : Task) :
    stepOk st (create_task st t0).1 := by
  intro id
  have ht : (create_task st t0).1.tasks
      = st.tasks ++ [{ t0 with status := "pending" }] := by
    unfold create_task
    rw [notify_tasks]
  unfold statusOf
  rw [ht, lookupTask_append]
  cases hl : lookupTask id st.tasks with
  | some x => exact legalStep_refl _
  | none =>
    cases hb : (({ t0 with status := "pending" } : Task).id == id) with
    | true =>
      simp only [hb, if_true, Option.map_some]
      exact Or.inr (Or.inl ⟨rfl, rfl⟩)
    | false =>
      simp only [hb, Bool.false_eq_true, if_false, Option.map_none]
      exact legalStep_refl _

theorem stepOk_update_task {st : OrchState} {id : String} {t : Task}
    (u : TaskUpdate) (h : lookupTask id st.tasks = some t)
    (hstep : legalStep (some t.status) (some (applyUpdate t u).status)) :
    stepOk st (update_task st id u).1 := by
  intro id'
  by_cases hid : id' = id
  · subst hid
    unfold statusOf
    rw [h, lookup_update_task u h]
    exact hstep
  · unfold statusOf
    rw [update_task_tasks u h, lookupTask_replaceTask_ne _ hid
      (by rw [applyUpdate_id]; exact lookupTask_beq h) st.tasks]
    exact legalStep_refl _

theorem consume_chain (process : Task → Except String JVal) (st : OrchState)
    (id : String) : List.Chain stepOk st (consume_task process st id).1 := by
  cases hl : lookupTask id st.tasks with
  | none =>
    have he : consume_task process st id
        = ([], .error ("Task with id " ++ id ++ " not found")) := by
      simp [consume_task, get_task, hl]
    rw [he]
    exact List.Chain.nil
  | some t =>
    by_cases hp : t.status = "pending"
    · have hstep1 : stepOk st
          (update_task st id { status := some "processing", state := some t.state }).1 :=
        stepOk_update_task _ hl (by rw [hp]; exact Or.inr (Or.inr (Or.inl ⟨rfl, rfl⟩)))
      have h1 := lookup_update_task
        { status := some "processing", state := some t.state } hl
      cases hr : process t with
      | ok r =>
        rw [consume_task_ok_eq process st id t r hl hp hr]
        refine List.Chain.cons hstep1 (List.Chain.cons ?_ List.Chain.nil)
        exact stepOk_update_task _ h1
          (Or.inr (Or.inr (Or.inr ⟨rfl, Or.inl rfl⟩)))
      | error e =>
        rw [consume_task_fail_eq process st id t e hl hp hr]
        refine List.Chain.cons hstep1 (List.Chain.cons ?_ List.Chain.nil)
        exact stepOk_update_task _ h1
          (Or.inr (Or.inr (Or.inr ⟨rfl, Or.inr rfl⟩)))
    · rw [consume_task_invalid_eq process st id t hl hp]
      exact List.Chain.nil

theorem chain_append_getLastD {α : Type} {R : α → α → Prop} {a : α}
    {l1 l2 : List α} (h1 : List.Chain R a l1)
    (h2 : List.Chain R (l1.getLastD a) l2) :
    List.Chain R a (l1 ++ l2) := by
  induction l1 generalizing a with
  | nil => simpa using h2
  | cons b l ih =>
    cases h1 with
    | cons hab h1 =>
      rw [List.getLastD_cons] at h2
      exact List.Chain.cons hab (ih h1 h2)

/-- Counterexample for C3: `update_task` validates nothing, so a single
`update_task` call with `status = "completed"` moves a pending task directly
to `completed`, skipping `processing` — a move the claimed state machine
forbids. -/
theorem C3_counterexample :
    statusOf stPending "t1" = some "pending"
    ∧ statusOf (update_task stPending "t1" { status := some "completed" }).1 "t1"
        = some "completed"
    ∧ ¬ legalStep (some "pending") (some "completed") := by
  refine ⟨rfl, rfl, ?_⟩
  simp [legalStep]

/-- C3 (amended): across any sequence of `create_task` and `consume_task`
operations, every persisted write respects the state machine: for every task
id, consecutive stored states are either unchanged or move
`none → pending` (creation), `pending → processing`, or
`processing → completed/failed`.  (`update_task` itself is excluded: it
applies any status present in the partial without validation, as the
counterexample shows.) -/
theorem C3_status_machine_amended (process : Task → Except String JVal)
    (st : OrchState) (ops : List Op) :
    List.Chain stepOk st (traceSnaps process st ops) := by
  induction ops generalizing st with
  | nil => exact List.Chain.nil
  | cons op ops ih =>
    simp only [traceSnaps]
    refine chain_append_getLastD ?_ (ih _)
    cases op with
    | create t => exact List.Chain.cons (stepOk_create st t) List.Chain.nil
    | consume id => exact consume_chain process st id

/-! ### The tasks-storage URL (C9) -/

theorem splitFirst_eq_none {c : Char} {s : List Char}
    (h : splitFirst c s = none) : c ∉ s := by
  induction s with
  | nil => simp
  | cons x xs ih =>
    by_cases hx : x = c
    · subst hx
      simp [splitFirst] at h
    · simp only [splitFirst, if_neg hx] at h
      cases hs : splitFirst c xs with
      | none =>
        simp only [List.mem_cons, not_or]
        exact ⟨fun hc => hx hc.symm, ih hs⟩
      | some ab => rw [hs] at h; cases h

theorem splitFirst_eq_some {c : Char} {s a b : List Char}
    (h : splitFirst c s = some (a, b)) : s = a ++ c :: b ∧ c ∉ a := by
  induction s generalizing a b with
  | nil => cases h
  | cons x xs ih =>
    by_cases hx : x = c
    · subst hx
      simp only [splitFirst, if_pos rfl] at h
      cases h
      exact ⟨rfl, by simp⟩
    · simp only [splitFirst, if_neg hx] at h
      cases hs : splitFirst c xs with
      | none => rw [hs] at h; cases h
      | some ab =>
        obtain ⟨a', b'⟩ := ab
        rw [hs] at h
        cases h
        obtain ⟨hxs, hna⟩ := ih hs
        constructor
        · rw [List.cons_append, hxs]
        · simp only [List.mem_cons, not_or]
          exact ⟨fun hc => hx hc.symm, hna⟩

theorem takeWhile_append_middle {p : Char → Bool} {a : List Char} {c : Char}
    (b : List Char) (ha : ∀ x ∈ a, p x = true) (hc : p c = false) :
    (a ++ c :: b).takeWhile p = a := by
  induction a with
  | nil => simp [List.takeWhile, hc]
  | cons x xs ih =>
    have hx : p x = true := ha x (by simp)
    simp only [List.cons_append, List.takeWhile, hx, List.append_eq]
    rw [ih (fun y hy => ha y (by simp [hy]))]

theorem rsplitLast_eq_fileExt (url : List Char) :
    rsplitLast '.' url = fileExt url := by
  unfold rsplitLast fileExt
  cases hs : splitFirst '.' url.reverse with
  | none =>
    have hnot : ('.' : Char) ∉ url.reverse := splitFirst_eq_none hs
    have htw : url.reverse.takeWhile (fun c => c != '.') = url.reverse := by
      rw [List.takeWhile_eq_self_iff]
      intro x hx
      simp only [bne_iff_ne, ne_eq]
      exact fun he => hnot (he ▸ hx)
    rw [htw]
    simp
  | some ab =>
    obtain ⟨a, b⟩ := ab
    obtain ⟨heq, hna⟩ := splitFirst_eq_some hs
    have htw : url.reverse.takeWhile (fun c => c != '.') = a := by
      rw [heq]
      refine takeWhile_append_middle b ?_ (by simp)
      intro x hx
      simp only [bne_iff_ne, ne_eq]
      exact fun he => hna (he ▸ hx)
    have hurl : url = b.reverse ++ '.' :: a.reverse := by
      have h2 := congrArg List.reverse heq
      simpa [List.reverse_append] using h2
    have hlen : url.length = b.length + 1 + a.length := by
      rw [hurl]
      simp only [List.length_append, List.length_cons, List.length_reverse]
      omega
    rw [htw]
    have hne : ¬ (a.reverse.length = url.length) := by
      simp only [List.length_reverse, hlen]
      omega
    rw [if_neg hne]
    have htake : url.take (url.length - a.reverse.length - 1) = b.reverse := by
      have hlr : url.length - a.reverse.length - 1 = b.reverse.length := by
        simp only [List.length_reverse, hlen]
        omega
      rw [hlr, hurl, List.take_left]
    rw [htake]

/-- C9: the URL derivation of `add_tasks_to_database_url` is exactly the
spec's description (`tasksUrlSpec`, written from the spec's words): sqlite
URLs get `-tasks` before the file extension or appended when there is none,
postgresql/mysql URLs get `_tasks` before the query string, all other schemes
pass through unchanged.  Three concrete instances, one per branch, are
conjoined. -/
theorem C9_add_tasks_url_refines_spec :
    (∀ url : List Char, add_tasks_to_database_url url = tasksUrlSpec url)
    ∧ add_tasks_to_database_url "sqlite:///langflow.db".toList
        = "sqlite:///langflow-tasks.db".toList
    ∧ add_tasks_to_database_url "postgresql://u@h/lf?sslmode=require".toList
        = "postgresql://u@h/lf_tasks?sslmode=require".toList
    ∧ add_tasks_to_database_url "redis://h/0".toList = "redis://h/0".toList := by
  refine ⟨?_, by decide, by decide, by decide⟩
  intro url
  unfold add_tasks_to_database_url tasksUrlSpec
  rw [rsplitLast_eq_fileExt]

/-! ### Content serialization round trip (C10) -/

theorem asStrs_map (l : List String) : asStrs (l.map JVal.str) = some l := by
  induction l with
  | nil => rfl
  | cons s rest ih => simp [asStrs, ih]

theorem base_roundtrip (c : BaseContent) (h : c.header ≠ .empty) :
    BaseContent.from_dict (BaseContent.to_dict c) = .ok c := by
  obtain ⟨ty, du, hd⟩ := c
  cases hd with
  | empty => exact absurd rfl h
  | mk t i => cases du <;> rfl

theorem error_roundtrip (c : ErrorContent) (h : c.header ≠ .empty) :
    ErrorContent.from_dict (ErrorContent.to_dict c) = .ok c := by
  obtain ⟨du, hd, comp, fld, rsn, sol, tb⟩ := c
  cases hd with
  | empty => exact absurd rfl h
  | mk t i =>
    cases du <;> cases comp <;> cases fld <;> cases rsn <;> cases sol <;>
      cases tb <;> rfl

theorem text_roundtrip (c : TextContent) (h : c.header ≠ .empty) :
    TextContent.from_dict (TextContent.to_dict c) = .ok c := by
  obtain ⟨du, hd, tx⟩ := c
  cases hd with
  | empty => exact absurd rfl h
  | mk t i => cases du <;> rfl

theorem media_roundtrip (c : MediaContent) (h : c.header ≠ .empty) :
    MediaContent.from_dict (MediaContent.to_dict c) = .ok c := by
  obtain ⟨du, hd, urls, cap⟩ := c
  cases hd with
  | empty => exact absurd rfl h
  | mk t i =>
    have ha := asStrs_map urls
    cases du <;> cases cap <;>
      simp [MediaContent.from_dict, MediaContent.to_dict, List.lookup,
        parseLit, parseOptInt, parseHeader, parseHeaderVal, parseReqStr,
        parseStrList, parseOptStr, optIntJ, optStrJ, HeaderDict.toJVal, ha,
        Except.bind] <;> rfl

theorem json_roundtrip (c : JSONContent) (h : c.header ≠ .empty) :
    JSONContent.from_dict (JSONContent.to_dict c) = .ok c := by
  obtain ⟨du, hd, da⟩ := c
  cases hd with
  | empty => exact absurd rfl h
  | mk t i => cases du <;> rfl

theorem code_roundtrip (c : CodeContent) (h : c.header ≠ .empty) :
    CodeContent.from_dict (CodeContent.to_dict c) = .ok c := by
  obtain ⟨du, hd, cd, lg, ti⟩ := c
  cases hd with
  | empty => exact absurd rfl h
  | mk t i => cases du <;> cases ti <;> rfl

theorem tool_roundtrip (c : ToolContent) (h : c.header ≠ .empty) :
    ToolContent.from_dict (ToolContent.to_dict c) = .ok c := by
  obtain ⟨du, hd, nm, ti, op, er⟩ := c
  cases hd with
  | empty => exact absurd rfl h
  | mk t i => cases du <;> cases nm <;> rfl

/-- Counterexample for C10: a `BaseContent` built with all defaults carries
the unvalidated `default_factory=dict` header `{}`; dumping it and validating
the dump fails (`HeaderDict` requires `title` and `icon`), so
`from_dict (to_dict c)` is not `c` — the round trip does not hold for every
content value. -/
theorem C10_counterexample :
    baseDefaultHeader.header = HeaderDict.empty
    ∧ BaseContent.from_dict (BaseContent.to_dict baseDefaultHeader)
        = .error "header: Field required" :=
  ⟨rfl, rfl⟩

/-- C10 (amended): for every content value of each content class whose header
is a complete `HeaderDict` (not the unvalidated empty default),
`from_dict (to_dict c)` succeeds and returns `c`; with the empty default
header the round trip instead fails validation, as the counterexample
shows. -/
theorem C10_roundtrip_amended :
    (∀ c : BaseContent, c.header ≠ .empty →
      BaseContent.from_dict (BaseContent.to_dict c) = .ok c)
    ∧ (∀ c : ErrorContent, c.header ≠ .empty →
      ErrorContent.from_dict (ErrorContent.to_dict c) = .ok c)
    ∧ (∀ c : TextContent, c.header ≠ .empty →
      TextContent.from_dict (TextContent.to_dict c) = .ok c)
    ∧ (∀ c : MediaContent, c.header ≠ .empty →
      MediaContent.from_dict (MediaContent.to_dict c) = .ok c)
    ∧ (∀ c : JSONContent, c.header ≠ .empty →
      JSONContent.from_dict (JSONContent.to_dict c) = .ok c)
    ∧ (∀ c : CodeContent, c.header ≠ .empty →
      CodeContent.from_dict (CodeContent.to_dict c) = .ok c)
    ∧ ∀ c : ToolContent, c.header ≠ .empty →
      ToolContent.from_dict (ToolContent.to_dict c) = .ok c :=
  ⟨base_roundtrip, error_roundtrip, text_roundtrip, media_roundtrip,
   json_roundtrip, code_roundtrip, tool_roundtrip⟩

/-- Witness for C10 (amended): one concrete complete-header value per content
class. -/
theorem C10_roundtrip_amended_witness :
    BaseContent.from_dict (BaseContent.to_dict cBase) = .ok cBase
    ∧ ErrorContent.from_dict (ErrorContent.to_dict cErr) = .ok cErr
    ∧ TextContent.from_dict (TextContent.to_dict cText) = .ok cText
    ∧ MediaContent.from_dict (MediaContent.to_dict cMedia) = .ok cMedia
    ∧ JSONContent.from_dict (JSONContent.to_dict cJson) = .ok cJson
    ∧ CodeContent.from_dict (CodeContent.to_dict cCode) = .ok cCode
    ∧ ToolContent.from_dict (ToolContent.to_dict cTool) = .ok cTool :=
  ⟨C10_roundtrip_amended.1 cBase (by decide),
   C10_roundtrip_amended.2.1 cErr (by decide),
   C10_roundtrip_amended.2.2.1 cText (by decide),
   C10_roundtrip_amended.2.2.2.1 cMedia (by decide),
   C10_roundtrip_amended.2.2.2.2.1 cJson (by simp [cJson]),
   C10_roundtrip_amended.2.2.2.2.2.1 cCode (by decide),
   C10_roundtrip_amended.2.2.2.2.2.2 cTool (by simp [cTool])⟩

end Langflow
